import Mathlib

/-!
# Verification of the qiankun lifecycle orchestrator (`src/loader.ts`)

A shallow embedding of the lifecycle orchestrator: the hook-chain executor,
the mount/unmount step sequences of the parcel config, the singular-mode
sequencer and its process-wide deferred token, the render dispatcher, the
wrapper builder (`createElement`), the per-load application instance
identity, and the memorized loading function of `loadMicroApp`.

Asynchronous steps are modelled as explicit state transformers returning an
`Except` outcome; promise chaining (`.then`) is sequential composition that
skips the continuation once an error has occurred, matching the
single-threaded event-loop semantics described in the design notes.
-/

namespace Qiankun

/-- An asynchronous step (a lifecycle hook, a sandbox call, an application
callback, or one entry of the parcel's mount/unmount array): it transforms a
state and either resolves (`Except.ok`) or rejects (`Except.error e`) with an
untouched rejection value `e`. -/
abbrev Step (σ : Type) (ε : Type) := σ → σ × Except ε Unit

/-- `chain.then(() => hook(app, global))` on promises: if the chain so far is
resolved, run the next hook from the current state; if it is rejected, the
hook is skipped and the rejection is propagated unchanged. -/
def promiseThen {σ ε : Type} (acc : σ × Except ε Unit) (hook : Step σ ε) :
    σ × Except ε Unit :=
  match acc with
  | (s, Except.ok _) => hook s
  | (s, Except.error e) => (s, Except.error e)

/-- `execHooksChain` (src/src/loader.ts lines 35–45): if the hook list is
non-empty it reduces the hooks over a resolved initial promise with `.then`,
otherwise it returns a resolved promise directly. -/
def execHooksChain {σ ε : Type} (hooks : List (Step σ ε)) (s : σ) :
    σ × Except ε Unit :=
  if hooks.length ≠ 0 then
    hooks.foldl promiseThen (s, Except.ok ())
  else
    (s, Except.ok ())

/-- Instrumented hooks for observing invocation order: hook number `i` appends
the tag `f i` to the trace and then yields its prescribed outcome `o`. The
outcome list `outs` gives one outcome per hook, tags counting up from `i`. -/
def taggedHooks {τ ε : Type} (f : Nat → τ) :
    List (Except ε Unit) → Nat → List (Step (List τ) ε)
  | [], _ => []
  | o :: os, i => (fun s => (s ++ [f i], o)) :: taggedHooks f os (i + 1)

theorem foldl_promiseThen_error {σ ε : Type} (hs : List (Step σ ε)) (s : σ)
    (e : ε) : hs.foldl promiseThen (s, Except.error e) = (s, Except.error e) := by
  induction hs with
  | nil => rfl
  | cons h t ih => simpa [List.foldl, promiseThen] using ih

theorem execHooksChain_nil {σ ε : Type} (s : σ) :
    execHooksChain ([] : List (Step σ ε)) s = (s, Except.ok ()) := rfl

theorem execHooksChain_cons {σ ε : Type} (h : Step σ ε) (hs : List (Step σ ε))
    (s : σ) :
    execHooksChain (h :: hs) s =
      match h s with
      | (s', Except.ok _) => execHooksChain hs s'
      | (s', Except.error e) => (s', Except.error e) := by
  rcases hh : h s with ⟨s', r⟩
  cases r with
  | ok u =>
    cases u
    cases hs with
    | nil => simp [execHooksChain, List.foldl, promiseThen, hh]
    | cons h' t => simp [execHooksChain, List.foldl, promiseThen, hh]
  | error e =>
    simp [execHooksChain, List.foldl, promiseThen, hh, foldl_promiseThen_error]

theorem execHooksChain_tagged_all_ok {τ ε : Type} (f : Nat → τ)
    (outs : List (Except ε Unit)) :
    ∀ (i : Nat) (s : List τ), (∀ o ∈ outs, o = Except.ok ()) →
      execHooksChain (taggedHooks f outs i) s =
        (s ++ (List.range' i outs.length).map f, Except.ok ()) := by
  induction outs with
  | nil => intro i s _; simp [taggedHooks, execHooksChain_nil]
  | cons o os ih =>
    intro i s hok
    have ho : o = Except.ok () := hok o (by simp)
    subst ho
    rw [taggedHooks, execHooksChain_cons]
    simp only []
    rw [ih (i + 1) (s ++ [f i]) (fun o' ho' => hok o' (by simp [ho']))]
    simp [List.range'_succ]

theorem execHooksChain_tagged_first_error {τ ε : Type} (f : Nat → τ)
    (outs : List (Except ε Unit)) :
    ∀ (k : Nat) (e : ε) (i : Nat) (s : List τ),
      outs.take k = List.replicate k (Except.ok ()) →
      outs[k]? = some (Except.error e) →
      execHooksChain (taggedHooks f outs i) s =
        (s ++ (List.range' i (k + 1)).map f, Except.error e) := by
  induction outs with
  | nil => intro k e i s _ hk; simp at hk
  | cons o os ih =>
    intro k e i s htake hk
    cases k with
    | zero =>
      simp at hk
      subst hk
      rw [taggedHooks, execHooksChain_cons]
      simp [List.range'_succ]
    | succ k' =>
      have ho : o = Except.ok () := by
        have := congrArg (fun l => l.head?) htake
        simpa [List.take, List.replicate] using this
      subst ho
      rw [taggedHooks, execHooksChain_cons]
      simp only []
      have htake' : os.take k' = List.replicate k' (Except.ok ()) := by
        simpa [List.take, List.replicate] using htake
      have hk' : os[k']? = some (Except.error e) := by simpa using hk
      rw [ih k' e (i + 1) (s ++ [f i]) htake' hk']
      simp [List.range'_succ]

/-- C4: `execHooksChain` runs hooks strictly sequentially (each hook's tag is
appended before the next hook runs, so the trace lists the hooks in
invocation order), the empty hook list resolves immediately with no effect,
and when hook `k` is the first to reject, only hooks `0..k` appear in the
trace — the remaining hooks are never invoked — and the returned promise
rejects with hook `k`'s rejection value unmodified. -/
theorem execHooksChain_sequential_empty_and_abort :
    (∀ (s : List Nat), execHooksChain ([] : List (Step (List Nat) String)) s =
        (s, Except.ok ())) ∧
    (∀ (outs : List (Except String Unit)) (s : List Nat),
      (∀ o ∈ outs, o = Except.ok ()) →
      execHooksChain (taggedHooks (fun j => j) outs 0) s =
        (s ++ List.range outs.length, Except.ok ())) ∧
    (∀ (outs : List (Except String Unit)) (k : Nat) (e : String) (s : List Nat),
      outs.take k = List.replicate k (Except.ok ()) →
      outs[k]? = some (Except.error e) →
      execHooksChain (taggedHooks (fun j => j) outs 0) s =
        (s ++ List.range (k + 1), Except.error e)) := by
  refine ⟨fun s => execHooksChain_nil s, fun outs s hok => ?_, fun outs k e s h1 h2 => ?_⟩
  · rw [execHooksChain_tagged_all_ok (fun j => j) outs 0 s hok]
    simp [List.range_eq_range']
  · rw [execHooksChain_tagged_first_error (fun j => j) outs k e 0 s h1 h2]
    simp [List.range_eq_range']

/-- Witness for C4 at a concrete input: three hooks where the second rejects
with `"boom"`; the first two hooks run in order, the third is never invoked,
and the chain rejects with `"boom"`. -/
theorem execHooksChain_sequential_empty_and_abort_witness :
    execHooksChain
        (taggedHooks (fun j => j)
          [Except.ok (), Except.error "boom", Except.ok ()] 0) [] =
      ([0, 1], Except.error "boom") := by
  have h := execHooksChain_sequential_empty_and_abort.2.2
    [Except.ok (), Except.error "boom", Except.ok ()] 1 "boom" []
    (by rfl) (by rfl)
  simpa using h

/-! ## The mount step sequence of the parcel config (loader.ts 350–392)

The parcel config's `mount` field is an ordered array of async steps; the
external Switching Engine (single-spa, a fixed-interface collaborator)
executes the steps strictly in declared order, aborting on the first
rejection, which is propagated to the caller.  Each step is instrumented to
record an effect tag in the trace when it is invoked. -/

/-- The observable effect of each entry of the mount step array, in source
order: the telemetry mark, the singular-mode wait, the `mounting` render, the
sandbox mount, the `beforeMount` hooks, the application-provided mount
callback, the `mounted` render, the `afterMount` hooks, the singular-token
issuance and the telemetry measure. -/
inductive MountEffect : Type
  | perfMark
  | singularWait
  | renderMounting
  | sandboxMount
  | beforeMountHook (i : Nat)
  | appMountCallback
  | renderMounted
  | afterMountHook (i : Nat)
  | tokenIssue
  | perfMeasure
deriving DecidableEq, Repr

/-- A mount step that records its effect tag and then yields the prescribed
outcome (resolution or rejection of the underlying async work). -/
def effStep {ε : Type} (eff : MountEffect) (out : Except ε Unit) :
    Step (List MountEffect) ε :=
  fun s => (s ++ [eff], out)

/-- Prescribed outcomes for the external/app-provided parts of one mount run:
the singular wait, the `mounting` render (which throws on a missing
container), the sandbox mount, the individual `beforeMount` hooks, the
application mount callback, the `mounted` render, the individual `afterMount`
hooks, and the token-issuance step. -/
structure MountOutcomes (ε : Type) where
  waitOut : Except ε Unit
  renderMountingOut : Except ε Unit
  sandboxOut : Except ε Unit
  beforeMountOuts : List (Except ε Unit)
  appMountOut : Except ε Unit
  renderMountedOut : Except ε Unit
  afterMountOuts : List (Except ε Unit)
  tokenIssueOut : Except ε Unit

/-- The mount step array of the parcel config (loader.ts 350–392), in source
order.  The `beforeMount` and `afterMount` chains are executed through
`execHooksChain`, exactly as in the source; the telemetry steps never
reject. -/
def mountSteps {ε : Type} (o : MountOutcomes ε) :
    List (Step (List MountEffect) ε) :=
  [ effStep MountEffect.perfMark (Except.ok ()),
    effStep MountEffect.singularWait o.waitOut,
    effStep MountEffect.renderMounting o.renderMountingOut,
    effStep MountEffect.sandboxMount o.sandboxOut,
    fun s => execHooksChain (taggedHooks MountEffect.beforeMountHook o.beforeMountOuts 0) s,
    effStep MountEffect.appMountCallback o.appMountOut,
    effStep MountEffect.renderMounted o.renderMountedOut,
    fun s => execHooksChain (taggedHooks MountEffect.afterMountHook o.afterMountOuts 0) s,
    effStep MountEffect.tokenIssue o.tokenIssueOut,
    effStep MountEffect.perfMeasure (Except.ok ()) ]

/-- The external engine's execution of a step array: strictly in order, each
step awaited, the first rejection aborts the remaining steps and is returned
to the caller; completed steps are not revisited (no rollback). -/
def runSeq {σ ε : Type} : List (Step σ ε) → σ → σ × Except ε Unit
  | [], s => (s, Except.ok ())
  | st :: rest, s =>
    match st s with
    | (s', Except.ok _) => runSeq rest s'
    | (s', Except.error e) => (s', Except.error e)

/-- C3: when a `beforeMount` hook is the first rejecting step of the mount
sequence (the singular wait, the `mounting` render and the sandbox mount all
resolved, the hooks before index `k` resolved, hook `k` rejects with `e`), the
entire mount run produces exactly the trace of the completed steps followed by
the invoked hooks `0..k` — so the application mount callback, the `mounted`
render, every `afterMount` hook and the singular-token issuance are never
invoked — the run rejects with the hook's rejection value `e` unmodified, and
the effects of the completed earlier steps remain in the trace (no step is
rolled back). -/
theorem mount_beforeMount_rejection_aborts {ε : Type} (o : MountOutcomes ε)
    (k : Nat) (e : ε)
    (hw : o.waitOut = Except.ok ())
    (hr : o.renderMountingOut = Except.ok ())
    (hs : o.sandboxOut = Except.ok ())
    (hpre : o.beforeMountOuts.take k = List.replicate k (Except.ok ()))
    (hk : o.beforeMountOuts[k]? = some (Except.error e)) :
    runSeq (mountSteps o) [] =
      ([MountEffect.perfMark, MountEffect.singularWait,
        MountEffect.renderMounting, MountEffect.sandboxMount] ++
        (List.range (k + 1)).map MountEffect.beforeMountHook,
        Except.error e) ∧
    (MountEffect.appMountCallback ∉
      ([MountEffect.perfMark, MountEffect.singularWait,
        MountEffect.renderMounting, MountEffect.sandboxMount] ++
        (List.range (k + 1)).map MountEffect.beforeMountHook)) ∧
    (MountEffect.renderMounted ∉
      ([MountEffect.perfMark, MountEffect.singularWait,
        MountEffect.renderMounting, MountEffect.sandboxMount] ++
        (List.range (k + 1)).map MountEffect.beforeMountHook)) ∧
    (∀ i, MountEffect.afterMountHook i ∉
      ([MountEffect.perfMark, MountEffect.singularWait,
        MountEffect.renderMounting, MountEffect.sandboxMount] ++
        (List.range (k + 1)).map MountEffect.beforeMountHook)) ∧
    (MountEffect.tokenIssue ∉
      ([MountEffect.perfMark, MountEffect.singularWait,
        MountEffect.renderMounting, MountEffect.sandboxMount] ++
        (List.range (k + 1)).map MountEffect.beforeMountHook)) := by
  refine ⟨?_, by simp, by simp, by simp, by simp⟩
  rw [mountSteps, runSeq]
  simp only [effStep, hw, runSeq]
  simp only [hr, runSeq]
  simp only [hs, runSeq]
  rw [execHooksChain_tagged_first_error MountEffect.beforeMountHook
    o.beforeMountOuts k e 0 _ hpre hk]
  simp [List.range_eq_range']

/-- Witness for C3 at a concrete input: a single `beforeMount` hook rejecting
with `"denied"`; the run stops right after that hook, with the four earlier
steps' effects retained. -/
theorem mount_beforeMount_rejection_aborts_witness :
    runSeq (mountSteps
      { waitOut := Except.ok (), renderMountingOut := Except.ok (),
        sandboxOut := Except.ok (),
        beforeMountOuts := [Except.error "denied"],
        appMountOut := Except.ok (), renderMountedOut := Except.ok (),
        afterMountOuts := [Except.ok ()],
        tokenIssueOut := Except.ok () }) [] =
      ([MountEffect.perfMark, MountEffect.singularWait,
        MountEffect.renderMounting, MountEffect.sandboxMount,
        MountEffect.beforeMountHook 0], Except.error "denied") := by
  have h := (mount_beforeMount_rejection_aborts
    (o := { waitOut := Except.ok (), renderMountingOut := Except.ok (),
            sandboxOut := Except.ok (),
            beforeMountOuts := [Except.error "denied"],
            appMountOut := Except.ok (), renderMountedOut := Except.ok (),
            afterMountOuts := [Except.ok ()],
            tokenIssueOut := Except.ok () })
    (k := 0) (e := "denied") rfl rfl rfl rfl rfl).1
  simpa using h

/-! ## The singular-mode sequencer and its process-wide deferred
(loader.ts 219, 381–385, 404–408)

`prevAppUnmountedDeferred` is a single module-level variable.  Mount step 9
installs a fresh `Deferred` into it when the instance runs in singular mode;
unmount step 6 resolves the currently installed deferred when the instance
runs in singular mode and a deferred exists.  Tokens are given explicit ids
and creators so that ownership can be observed. -/

/-- One issued singular token (one `Deferred` ever assigned to
`prevAppUnmountedDeferred`): its id and the application instance that
created it. -/
structure TokenInfo where
  id : Nat
  creator : Nat
deriving DecidableEq, Repr

/-- The process-wide singular state: the id of the currently installed
deferred (if any was ever installed), every token issued so far, the ids of
the resolved tokens, and a fresh-id counter. -/
structure TokenState where
  installed : Option Nat
  tokens : List TokenInfo
  resolved : List Nat
  nextId : Nat
deriving DecidableEq, Repr

/-- The module-level initial state: `prevAppUnmountedDeferred` starts
undefined. -/
def initTokenState : TokenState :=
  { installed := none, tokens := [], resolved := [], nextId := 0 }

/-- Mount step 9 (loader.ts 381–385): if the instance runs in singular mode,
overwrite `prevAppUnmountedDeferred` with a freshly created deferred owned by
this instance; otherwise do nothing. -/
def singularTokenIssue (singular : Nat → Bool) (i : Nat) (s : TokenState) :
    TokenState :=
  if singular i then
    { installed := some s.nextId,
      tokens := ⟨s.nextId, i⟩ :: s.tokens,
      resolved := s.resolved,
      nextId := s.nextId + 1 }
  else s

/-- Unmount step 6 (loader.ts 404–408): if the instance runs in singular mode
and a deferred is installed, resolve the installed deferred — the source
performs no check of which instance created it. -/
def singularTokenResolve (singular : Nat → Bool) (i : Nat) (s : TokenState) :
    TokenState :=
  if singular i then
    match s.installed with
    | some t => { s with resolved := t :: s.resolved }
    | none => s
  else s

/-- The tokens issued and not yet resolved. -/
def unresolvedTokens (s : TokenState) : List TokenInfo :=
  s.tokens.filter (fun t => !(s.resolved.contains t.id))

/-- One invocation of the token-issuance step (mount 9) or the
token-resolution step (unmount 6) by an application instance. -/
inductive TokenOp : Type
  | issue (i : Nat)
  | resolve (i : Nat)

/-- Run a sequence of token operations from a state. -/
def runTokenOps (singular : Nat → Bool) : List TokenOp → TokenState → TokenState
  | [], s => s
  | TokenOp.issue i :: ops, s =>
      runTokenOps singular ops (singularTokenIssue singular i s)
  | TokenOp.resolve i :: ops, s =>
      runTokenOps singular ops (singularTokenResolve singular i s)

/-- The gate discipline guaranteed by the singular-mode wait (mount step 2)
under correct sequencing by the external Switching Engine: a token is only
issued from a state in which no token is unresolved (the issuing instance's
own wait step awaited the previous token's resolution). -/
inductive Sequenced (singular : Nat → Bool) : TokenState → List TokenOp → Prop
  | nil (s : TokenState) : Sequenced singular s []
  | issue (s : TokenState) (i : Nat) (ops : List TokenOp)
      (hgate : unresolvedTokens s = [])
      (htail : Sequenced singular (singularTokenIssue singular i s) ops) :
      Sequenced singular s (TokenOp.issue i :: ops)
  | resolve (s : TokenState) (i : Nat) (ops : List TokenOp)
      (htail : Sequenced singular (singularTokenResolve singular i s) ops) :
      Sequenced singular s (TokenOp.resolve i :: ops)

/-- Well-formedness of a token state: every issued token id, every resolved
id and the installed id are below the fresh-id counter. -/
def TokenWf (s : TokenState) : Prop :=
  (∀ t ∈ s.tokens, t.id < s.nextId) ∧ (∀ r ∈ s.resolved, r < s.nextId) ∧
  (∀ t, s.installed = some t → t < s.nextId)

theorem tokenWf_init : TokenWf initTokenState := by
  refine ⟨?_, ?_, ?_⟩
  · intro t ht; simp [initTokenState] at ht
  · intro r hr; simp [initTokenState] at hr
  · intro t ht; simp [initTokenState] at ht

theorem tokenWf_issue (singular : Nat → Bool) (i : Nat) (s : TokenState)
    (h : TokenWf s) : TokenWf (singularTokenIssue singular i s) := by
  rcases h with ⟨ht, hr, hi⟩
  by_cases hsing : singular i = true
  · simp only [singularTokenIssue, hsing, if_true]
    refine ⟨?_, ?_, ?_⟩
    · intro t htm
      rcases List.mem_cons.mp htm with rfl | htm
      · exact Nat.lt_succ_self _
      · exact Nat.lt_succ_of_lt (ht t htm)
    · intro r hrm
      exact Nat.lt_succ_of_lt (hr r hrm)
    · intro t htm
      have h2 : some s.nextId = some t := htm
      cases h2
      exact Nat.lt_succ_self _
  · simp only [singularTokenIssue, hsing, if_false]
    exact ⟨ht, hr, hi⟩

theorem tokenWf_resolve (singular : Nat → Bool) (i : Nat) (s : TokenState)
    (h : TokenWf s) : TokenWf (singularTokenResolve singular i s) := by
  rcases h with ⟨ht, hr, hi⟩
  by_cases hsing : singular i = true
  · cases hins : s.installed with
    | none =>
      simp only [singularTokenResolve, hsing, if_true, hins]
      exact ⟨ht, hr, hi⟩
    | some t =>
      simp only [singularTokenResolve, hsing, if_true, hins]
      refine ⟨ht, ?_, ?_⟩
      · intro r hrm
        rcases List.mem_cons.mp hrm with rfl | hrm
        · exact hi r hins
        · exact hr r hrm
      · intro t' hins'
        have h2 : some t = some t' := hins'
        cases h2
        exact hi t hins
  · simp only [singularTokenResolve, hsing, if_false]
    exact ⟨ht, hr, hi⟩

theorem length_filter_le_of_imp {α : Type} (p q : α → Bool)
    (h : ∀ a, p a = true → q a = true) (l : List α) :
    (l.filter p).length ≤ (l.filter q).length := by
  rw [← List.countP_eq_length_filter, ← List.countP_eq_length_filter]
  exact List.countP_mono_left (fun x _ hx => h x hx)

theorem unresolved_resolve_le (singular : Nat → Bool) (i : Nat)
    (s : TokenState) :
    (unresolvedTokens (singularTokenResolve singular i s)).length ≤
      (unresolvedTokens s).length := by
  by_cases hsing : singular i = true
  · cases hins : s.installed with
    | none => simp [singularTokenResolve, hsing, hins]
    | some t =>
      simp only [singularTokenResolve, hsing, if_true, hins, unresolvedTokens]
      apply length_filter_le_of_imp
      intro a ha
      simp only [List.contains, List.elem_eq_mem, Bool.not_eq_true',
        decide_eq_false_iff_not, List.mem_cons, not_or] at ha ⊢
      exact ha.2
  · simp [singularTokenResolve, hsing]

theorem unresolved_issue_of_gate (singular : Nat → Bool) (i : Nat)
    (s : TokenState) (hwf : TokenWf s) (hgate : unresolvedTokens s = []) :
    (unresolvedTokens (singularTokenIssue singular i s)).length ≤ 1 := by
  by_cases hsing : singular i = true
  · have hnm : s.nextId ∉ s.resolved := fun hmem =>
      absurd (hwf.2.1 _ hmem) (Nat.lt_irrefl _)
    have hgate' : s.tokens.filter (fun t => !(s.resolved.contains t.id)) = [] :=
      hgate
    simp only [List.contains, List.elem_eq_mem] at hgate'
    simp only [singularTokenIssue, hsing, if_true, unresolvedTokens]
    rw [List.filter_cons]
    simp [List.contains, List.elem_eq_mem, hnm, hgate']
  · simp [singularTokenIssue, hsing, hgate]

theorem sequenced_unresolved_le_one (singular : Nat → Bool)
    (ops : List TokenOp) (s : TokenState)
    (hseq : Sequenced singular s ops) (hwf : TokenWf s)
    (hle : (unresolvedTokens s).length ≤ 1) :
    (unresolvedTokens (runTokenOps singular ops s)).length ≤ 1 := by
  induction hseq with
  | nil s => simpa [runTokenOps] using hle
  | issue s i ops hgate htail ih =>
    rw [runTokenOps]
    exact ih (tokenWf_issue singular i s hwf)
      (unresolved_issue_of_gate singular i s hwf hgate)
  | resolve s i ops htail ih =>
    rw [runTokenOps]
    exact ih (tokenWf_resolve singular i s hwf)
      (Nat.le_trans (unresolved_resolve_le singular i s) hle)

/-- C1 counterexample: the token-resolution step of the unmount sequence has
no ownership check.  Starting from the initial state, instance `0` issues the
token (it is the creator and installed token is id `0`), and then instance
`1` — which does not own the token — runs the unmount token-resolution step
and resolves it.  This refutes the claim that the step resolves the
process-wide deferred only when the unmounting instance owns it. -/
theorem singular_token_ownership_counterexample :
    (singularTokenIssue (fun _ => true) 0 initTokenState).installed =
      some 0 ∧
    (singularTokenIssue (fun _ => true) 0 initTokenState).tokens =
      [{ id := 0, creator := 0 }] ∧
    (singularTokenResolve (fun _ => true) 1
      (singularTokenIssue (fun _ => true) 0 initTokenState)).resolved =
      [0] ∧
    (1 : Nat) ≠ 0 := by
  refine ⟨rfl, rfl, rfl, by decide⟩

/-- C1 amended: under the gate discipline that the singular-mode wait
guarantees with correct external sequencing — every issuance happens from a
state with no unresolved token — at most one unresolved singular token exists
after any sequence of issuance/resolution steps from the initial state; and
the unmount token-resolution step resolves whatever deferred is currently
installed whenever this instance runs in singular mode and a deferred exists,
with no check of which instance created it. -/
theorem singular_token_at_most_one_unresolved (singular : Nat → Bool) :
    (∀ ops : List TokenOp, Sequenced singular initTokenState ops →
      (unresolvedTokens (runTokenOps singular ops initTokenState)).length ≤ 1) ∧
    (∀ (s : TokenState) (i t : Nat), singular i = true →
      s.installed = some t →
      (singularTokenResolve singular i s).resolved = t :: s.resolved) := by
  constructor
  · intro ops hseq
    exact sequenced_unresolved_le_one singular ops initTokenState hseq
      tokenWf_init (by simp [unresolvedTokens, initTokenState])
  · intro s i t hsing hins
    simp [singularTokenResolve, hsing, hins]

/-- Witness for C1's amended theorem at a concrete input: the sequenced trace
where instance `0` mounts and unmounts, then instance `1` mounts and
unmounts, all in singular mode, ends with at most one unresolved token, and a
resolution step on a state with token `5` installed resolves exactly token
`5`. -/
theorem singular_token_at_most_one_unresolved_witness :
    (unresolvedTokens (runTokenOps (fun _ => true)
      [TokenOp.issue 0, TokenOp.resolve 0, TokenOp.issue 1, TokenOp.resolve 1]
      initTokenState)).length ≤ 1 ∧
    (singularTokenResolve (fun _ => true) 9
      { installed := some 5, tokens := [{ id := 5, creator := 2 }],
        resolved := [], nextId := 6 }).resolved = [5] := by
  constructor
  · exact (singular_token_at_most_one_unresolved (fun _ => true)).1
      [TokenOp.issue 0, TokenOp.resolve 0, TokenOp.issue 1, TokenOp.resolve 1]
      (Sequenced.issue _ _ _ (by decide)
        (Sequenced.resolve _ _ _
          (Sequenced.issue _ _ _ (by decide)
            (Sequenced.resolve _ _ _ (Sequenced.nil _)))))
  · exact (singular_token_at_most_one_unresolved (fun _ => true)).2
      { installed := some 5, tokens := [{ id := 5, creator := 2 }],
        resolved := [], nextId := 6 } 9 5 rfl rfl

/-! ## The singular-mode policy (loader.ts 47–52) and its call sites

`validateSingularMode` evaluates the configured policy on every call: a
static flag is coerced to a boolean, an async predicate is invoked anew.
An impure predicate is modelled by an oracle giving the return value of its
`n`-th invocation, with the invocation counter threaded explicitly.  The
policy is consulted at four places of one load's lifecycle: the load gate
(line 253), the mount singular-wait step (line 361), the mount token-issuance
step (line 382) and the unmount token-resolution step (line 405). -/

/-- The `singular` configuration value: a static flag (coerced with `!!`) or
a user-supplied async predicate over the app descriptor. -/
inductive SingularPolicy : Type
  | flag (b : Bool)
  | pred
deriving DecidableEq, Repr

/-- `validateSingularMode` (loader.ts 47–52): `typeof validate === 'function'
? validate(app) : !!validate`.  Given the invocation counter, returns the
decision and the new counter; a predicate policy invokes the (possibly
impure) predicate, whose `n`-th result is `oracle n`. -/
def validateSingularMode (oracle : Nat → Bool) :
    SingularPolicy → Nat → Bool × Nat
  | SingularPolicy.flag b, calls => (b, calls)
  | SingularPolicy.pred, calls => (oracle calls, calls + 1)

/-- The four decisions one load's lifecycle obtains from
`validateSingularMode`, in execution order — the load gate (line 253), the
mount singular-wait step (line 361), the mount token-issuance step (line 382)
and the unmount token-resolution step (line 405) — together with the final
invocation counter of the predicate. -/
def lifecycleSingularDecisions (oracle : Nat → Bool) (p : SingularPolicy) :
    List Bool × Nat :=
  let r1 := validateSingularMode oracle p 0
  let r2 := validateSingularMode oracle p r1.2
  let r3 := validateSingularMode oracle p r2.2
  let r4 := validateSingularMode oracle p r3.2
  ([r1.1, r2.1, r3.1, r4.1], r4.2)

/-- C2 (code bug): the singular-mode predicate is not evaluated once and
cached per load — with the impure predicate that answers `true` on its first
invocation and `false` afterwards, one load's lifecycle invokes the predicate
four times (load gate, mount wait, token issuance, token resolution), and the
mount-wait step observes a different exclusivity decision (`false`) than the
load gate (`true`).  The claim (and §4.6/§9 of the spec) requires a single
cached evaluation, which would give counter `1` and equal decisions. -/
theorem validateSingularMode_reinvoked_per_step :
    lifecycleSingularDecisions (fun n => n == 0) SingularPolicy.pred =
      ([true, false, false, false], 4) ∧
    (lifecycleSingularDecisions (fun n => n == 0) SingularPolicy.pred).2 ≠ 1 := by
  refine ⟨rfl, by decide⟩

/-! ## The render dispatcher (loader.ts 25–33, 127–196)

Elements are identified by naturals; the DOM is the direct-children list of
every container element.  `getContainer` (imported from `src/utils.ts`, whose
code is not part of the sources) is modelled from the spec.  JS truthiness of
the container argument matters: `remountContainer || container` falls back to
`container` when `remountContainer` is `undefined` — but also when it is the
empty string. -/

/-- A container argument as the JS code receives it: a lookup key (CSS
selector string) or a direct element handle. -/
inductive ContainerRef : Type
  | selector (s : String)
  | element (e : Nat)
deriving DecidableEq, Repr

/-- JS truthiness of an optional container argument: `undefined` and the
empty selector string are falsy, everything else is truthy. -/
def containerTruthy : Option ContainerRef → Bool
  | none => false
  | some (ContainerRef.selector s) => !(s == "")
  | some (ContainerRef.element _) => true

/-- `remountContainer || container` (loader.ts 159): JS logical OR, which
falls back to `container` whenever `remountContainer` is falsy. -/
def jsOrContainer (remount fallback : Option ContainerRef) :
    Option ContainerRef :=
  if containerTruthy remount then remount else fallback

/-- Modelled from the spec: `getContainer` (imported from `src/utils.ts`,
not included in the sources) — "accepts a direct element handle or a lookup
key resolved at render time (not at configuration time)".  `lookup` stands
for the document's selector resolution. -/
def getContainer (lookup : String → Option Nat) :
    Option ContainerRef → Option Nat
  | none => none
  | some (ContainerRef.selector s) => lookup s
  | some (ContainerRef.element e) => some e

/-- `assertElementExist` (loader.ts 25–33): rejects with the given message
(or the generic one) when the element is absent. -/
def assertElementExist (element : Option Nat) (msg : Option String) :
    Except String Unit :=
  match element with
  | none =>
    match msg with
    | some m => Except.error m
    | none => Except.error "[qiankun] element not existed!"
  | some _ => Except.ok ()

/-- The render phases (loader.ts 131). -/
inductive Phase : Type
  | loading
  | mounting
  | mounted
  | unmounted
deriving DecidableEq, Repr

/-- The error message switch of the render function (loader.ts 163–176). -/
def renderErrorMsg (appName : String) (phase : Phase) : String :=
  match phase with
  | Phase.loading =>
    "[qiankun] Target container not existed while " ++ appName ++ " loading!"
  | Phase.mounting =>
    "[qiankun] Target container not existed while " ++ appName ++ " mounting!"
  | Phase.mounted =>
    "[qiankun] Target container not existed after " ++ appName ++ " mounted!"
  | Phase.unmounted =>
    "[qiankun] Target container not existed while " ++ appName ++ " rendering!"

/-- The props of one render call (loader.ts 129–132). -/
structure RenderProps where
  element : Option Nat
  loading : Bool
  remountContainer : Option ContainerRef

/-- The outcome of one render call: delegation to the legacy render function
(with the `loading` flag and the app content or the empty string), a thrown
configuration error, or a normal return carrying the new DOM and the
container element this call resolved and operated on. -/
inductive RenderResult : Type
  | legacy (loading : Bool) (appContent : String)
  | threw (msg : String)
  | ok (dom : Nat → List Nat) (target : Option Nat)

/-- `containerElement.contains(element)` restricted to this flat model: the
element is among the container's children; `contains(null)` is `false`. -/
def domContains (children : List Nat) : Option Nat → Bool
  | some el => children.contains el
  | none => false

/-- The container's children after the clear loop and the conditional
append (loader.ts 181–189): all existing children removed, then the element
appended if it is non-null. -/
def clearedThenAppended (element : Option Nat) : List Nat :=
  match element with
  | some el => [el]
  | none => []

/-- Replace the children of container `c`. -/
def updateDom (dom : Nat → List Nat) (c : Nat) (l : List Nat) :
    Nat → List Nat :=
  fun x => if x = c then l else dom x

/-- The render closure produced by `getRender` (loader.ts 142–196).  When a
legacy render function was supplied it delegates immediately; otherwise the
target container is resolved at call time from `remountContainer ||
container`, a missing container is fatal for every phase except `unmounted`,
and the element is attached only when the container does not already contain
it, after synchronously clearing the container's existing children. -/
def render (lookup : String → Option Nat) (appName : String)
    (container : Option ContainerRef) (hasLegacyRender : Bool)
    (appContent : String) (dom : Nat → List Nat) (props : RenderProps)
    (phase : Phase) : RenderResult :=
  if hasLegacyRender then
    RenderResult.legacy props.loading
      (if props.element.isSome then appContent else "")
  else
    let containerElement :=
      getContainer lookup (jsOrContainer props.remountContainer container)
    let attach : RenderResult :=
      match containerElement with
      | none => RenderResult.ok dom none
      | some c =>
        if domContains (dom c) props.element then
          RenderResult.ok dom (some c)
        else
          RenderResult.ok
            (updateDom dom c (clearedThenAppended props.element)) (some c)
    if phase ≠ Phase.unmounted then
      match assertElementExist containerElement
          (some (renderErrorMsg appName phase)) with
      | Except.error m => RenderResult.threw m
      | Except.ok _ => attach
    else
      attach

/-- The container element a render call resolved and operated on, if it
returned normally. -/
def renderTarget : RenderResult → Option Nat
  | RenderResult.ok _ t => t
  | _ => none

/-- C6: in the non-legacy path, when the target container is unresolvable,
the phases `loading`, `mounting` and `mounted` throw the configuration error
of the phase-specific message, while the phase `unmounted` returns normally
with the DOM untouched. -/
theorem render_missing_container_policy (lookup : String → Option Nat)
    (appName : String) (container : Option ContainerRef)
    (appContent : String) (dom : Nat → List Nat) (props : RenderProps)
    (hnone : getContainer lookup
      (jsOrContainer props.remountContainer container) = none) :
    (∀ phase, phase ≠ Phase.unmounted →
      render lookup appName container false appContent dom props phase =
        RenderResult.threw (renderErrorMsg appName phase)) ∧
    render lookup appName container false appContent dom props
        Phase.unmounted = RenderResult.ok dom none := by
  constructor
  · intro phase hphase
    simp [render, hnone, hphase, assertElementExist]
  · simp [render, hnone]

/-- Witness for C6 at a concrete input: an unresolvable selector `#app`
throws while `mounting` and is tolerated while `unmounted`. -/
theorem render_missing_container_policy_witness :
    render (fun _ => none) "app" (some (ContainerRef.selector "#app")) false
        "<div></div>" (fun _ => []) ⟨some 3, true, none⟩ Phase.mounting =
      RenderResult.threw
        "[qiankun] Target container not existed while app mounting!" ∧
    render (fun _ => none) "app" (some (ContainerRef.selector "#app")) false
        "<div></div>" (fun _ => []) ⟨some 3, true, none⟩ Phase.unmounted =
      RenderResult.ok (fun _ => []) none := by
  constructor
  · have h := (render_missing_container_policy (fun _ => none) "app"
      (some (ContainerRef.selector "#app")) "<div></div>" (fun _ => [])
      ⟨some 3, true, none⟩ rfl).1 Phase.mounting (by decide)
    simpa [renderErrorMsg] using h
  · exact (render_missing_container_policy (fun _ => none) "app"
      (some (ContainerRef.selector "#app")) "<div></div>" (fun _ => [])
      ⟨some 3, true, none⟩ rfl).2

/-- C5: rendering a non-null element twice with phase `mounted` into a
resolvable container is idempotent.  Starting from any DOM in which the
container holds the element at most once (the DOM invariant — a node cannot
be a child twice), the first call leaves the container holding exactly one
copy of the element, the second call performs no DOM mutation (it returns
the very same DOM), and every other container is untouched. -/
theorem render_mounted_idempotent (lookup : String → Option Nat)
    (appName : String) (container : Option ContainerRef)
    (appContent : String) (dom : Nat → List Nat) (el c : Nat)
    (loading : Bool) (remount : Option ContainerRef)
    (hres : getContainer lookup (jsOrContainer remount container) = some c)
    (honce : (dom c).count el ≤ 1) :
    ∃ dom1 : Nat → List Nat,
      render lookup appName container false appContent dom
          ⟨some el, loading, remount⟩ Phase.mounted =
        RenderResult.ok dom1 (some c) ∧
      render lookup appName container false appContent dom1
          ⟨some el, loading, remount⟩ Phase.mounted =
        RenderResult.ok dom1 (some c) ∧
      (dom1 c).count el = 1 ∧
      (∀ x, x ≠ c → dom1 x = dom x) := by
  by_cases hmem : el ∈ dom c
  · have hdc : domContains (dom c) (some el) = true := by
      simp [domContains, List.contains, List.elem_eq_mem, hmem]
    refine ⟨dom, ?_, ?_, ?_, fun x _ => rfl⟩
    · simp [render, hres, assertElementExist, hdc]
    · simp [render, hres, assertElementExist, hdc]
    · have h1 : 0 < (dom c).count el := List.count_pos_iff.mpr hmem
      omega
  · refine ⟨updateDom dom c [el], ?_, ?_, ?_, ?_⟩
    · have hnc : domContains (dom c) (some el) = false := by
        simp [domContains, List.contains, List.elem_eq_mem, hmem]
      simp [render, hres, assertElementExist, hnc, clearedThenAppended]
    · have hc1 : updateDom dom c [el] c = [el] := by simp [updateDom]
      have hnc : domContains (updateDom dom c [el] c) (some el) = true := by
        simp [hc1, domContains]
      simp [render, hres, assertElementExist, hnc]
    · simp [updateDom]
    · intro x hx
      simp [updateDom, hx]

/-- Witness for C5 at a concrete input: container `7` (selector `#root`)
initially holds children `[4, 5]`; rendering element `9` twice leaves exactly
one copy of `9` in container `7`. -/
theorem render_mounted_idempotent_witness :
    ∃ dom1 : Nat → List Nat,
      render (fun s => if s == "#root" then some 7 else none) "app"
          (some (ContainerRef.selector "#root")) false "<div></div>"
          (fun x => if x == 7 then [4, 5] else []) ⟨some 9, false, none⟩
          Phase.mounted =
        RenderResult.ok dom1 (some 7) ∧
      render (fun s => if s == "#root" then some 7 else none) "app"
          (some (ContainerRef.selector "#root")) false "<div></div>" dom1
          ⟨some 9, false, none⟩ Phase.mounted =
        RenderResult.ok dom1 (some 7) ∧
      (dom1 7).count 9 = 1 ∧
      (∀ x, x ≠ 7 → dom1 x = (fun x => if x == 7 then [4, 5] else []) x) :=
  render_mounted_idempotent (fun s => if s == "#root" then some 7 else none)
    "app" (some (ContainerRef.selector "#root")) "<div></div>"
    (fun x => if x == 7 then [4, 5] else []) 9 7 false none rfl (by decide)

/-- The target selection as the spec words it: `remountContainer ??
container`, nullish coalescing, which keeps `remountContainer` whenever it is
present — including the empty selector string.  Written from the spec's
words, for comparison with `jsOrContainer`, which follows the code. -/
def specNullishContainer (remount fallback : Option ContainerRef) :
    Option ContainerRef :=
  match remount with
  | some r => some r
  | none => fallback

/-- C7 counterexample: the code resolves the target from `remountContainer ||
container` (JS logical OR), not from `remountContainer ?? container`.  With a
document where the empty selector resolves to element `1` and `#app` to
element `2`, a call with `remountContainer = ''` and `container = '#app'`
operates on element `2`, while the spec's `??` selection names element `1`. -/
theorem render_target_not_nullish_counterexample :
    renderTarget (render
        (fun s => if s == "" then some 1 else
          if s == "#app" then some 2 else none)
        "app" (some (ContainerRef.selector "#app")) false "<div></div>"
        (fun _ => []) ⟨some 9, true, some (ContainerRef.selector "")⟩
        Phase.mounting) = some 2 ∧
    getContainer
        (fun s => if s == "" then some 1 else
          if s == "#app" then some 2 else none)
        (specNullishContainer (some (ContainerRef.selector ""))
          (some (ContainerRef.selector "#app"))) = some 1 ∧
    some 2 ≠ some 1 := by
  refine ⟨rfl, rfl, by decide⟩

/-- C7 amended: in the non-legacy path the target container is re-resolved on
every call from `remountContainer || container` (JS logical OR: an absent —
or empty-string — `remountContainer` falls back to `container`); the resolved
container is never cached across calls, so two calls whose arguments resolve
to containers `c₁` and `c₂` operate on `c₁` and `c₂` respectively. -/
theorem render_resolves_target_per_call (lookup : String → Option Nat)
    (appName : String) (container : Option ContainerRef)
    (appContent : String) (dom₁ dom₂ : Nat → List Nat)
    (p₁ p₂ : RenderProps) (phase₁ phase₂ : Phase) (c₁ c₂ : Nat)
    (h₁ : getContainer lookup
      (jsOrContainer p₁.remountContainer container) = some c₁)
    (h₂ : getContainer lookup
      (jsOrContainer p₂.remountContainer container) = some c₂) :
    renderTarget (render lookup appName container false appContent dom₁ p₁
      phase₁) = some c₁ ∧
    renderTarget (render lookup appName container false appContent dom₂ p₂
      phase₂) = some c₂ := by
  constructor
  · by_cases hup : phase₁ = Phase.unmounted
    · subst hup
      simp only [render, if_false, h₁]
      by_cases hdc : domContains (dom₁ c₁) p₁.element
      · simp [hdc, renderTarget]
      · simp [hdc, renderTarget]
    · simp only [render, if_false, h₁]
      by_cases hdc : domContains (dom₁ c₁) p₁.element
      · simp [hup, assertElementExist, hdc, renderTarget]
      · simp [hup, assertElementExist, hdc, renderTarget]
  · by_cases hup : phase₂ = Phase.unmounted
    · subst hup
      simp only [render, if_false, h₂]
      by_cases hdc : domContains (dom₂ c₂) p₂.element
      · simp [hdc, renderTarget]
      · simp [hdc, renderTarget]
    · simp only [render, if_false, h₂]
      by_cases hdc : domContains (dom₂ c₂) p₂.element
      · simp [hup, assertElementExist, hdc, renderTarget]
      · simp [hup, assertElementExist, hdc, renderTarget]

/-- Witness for C7's amended theorem at a concrete input: with `#a ↦ 3` and
`#b ↦ 4`, a first call without `remountContainer` targets container `3` and a
later call with `remountContainer = '#b'` targets container `4`. -/
theorem render_resolves_target_per_call_witness :
    renderTarget (render
        (fun s => if s == "#a" then some 3 else
          if s == "#b" then some 4 else none)
        "app" (some (ContainerRef.selector "#a")) false "<div></div>"
        (fun _ => []) ⟨some 9, true, none⟩ Phase.mounting) = some 3 ∧
    renderTarget (render
        (fun s => if s == "#a" then some 3 else
          if s == "#b" then some 4 else none)
        "app" (some (ContainerRef.selector "#a")) false "<div></div>"
        (fun _ => []) ⟨some 9, true, some (ContainerRef.selector "#b")⟩
        Phase.mounting) = some 4 :=
  render_resolves_target_per_call
    (fun s => if s == "#a" then some 3 else
      if s == "#b" then some 4 else none)
    "app" (some (ContainerRef.selector "#a")) "<div></div>"
    (fun _ => []) (fun _ => []) ⟨some 9, true, none⟩
    ⟨some 9, true, some (ContainerRef.selector "#b")⟩ Phase.mounting
    Phase.mounting 3 4 rfl rfl

/-! ## The wrapper builder `createElement` (loader.ts 54–82)

The app content (guaranteed to be wrapped in a singular div) is parsed into a
live element; `parse` stands for the browser's HTML parsing of
`containerElement.innerHTML = appContent; appElement = firstChild`, giving
the inner markup of the single root element.  An element is modelled by its
inner content and its optional shadow sub-tree. -/

/-- A wrapper element: its inner content, and the content of its isolated
shadow sub-tree when one was attached. -/
structure AppElement where
  content : String
  shadow : Option String
deriving DecidableEq, Repr

/-- The result of `createElement`: the returned wrapper element (always
produced — no failure path exists) and whether the capability warning was
emitted. -/
structure CreateElementResult where
  element : AppElement
  warned : Bool
deriving DecidableEq, Repr

/-- `createElement` (loader.ts 56–82): parse the app content into the single
root element; when strict style isolation is requested, either emit the
capability warning and leave the element as-is (shadow DOM unsupported), or
move the element's inner HTML into a freshly attached shadow root and return
the same outer element. -/
def createElement (supportShadowDOM : Bool) (parse : String → String)
    (appContent : String) (strictStyleIsolation : Bool) :
    CreateElementResult :=
  let appElement : AppElement := { content := parse appContent, shadow := none }
  if strictStyleIsolation then
    if !supportShadowDOM then
      { element := appElement, warned := true }
    else
      { element := { content := "", shadow := some appElement.content },
        warned := false }
  else
    { element := appElement, warned := false }

/-- C8: when strict style isolation is requested but the platform lacks the
shadow-DOM primitive, `createElement` still returns the parsed wrapper
element with no isolation applied, emitting only the diagnostic — identical
to the non-strict element except for the warning, so the load does not fail;
when the primitive is supported, the original children are re-hosted inside
the shadow sub-tree (the inner content moves into the shadow root, the outer
element is emptied) while the same outer element remains the value returned
as the attachment point. -/
theorem createElement_isolation_policy (parse : String → String)
    (appContent : String) :
    (createElement false parse appContent true =
      { element := { content := parse appContent, shadow := none },
        warned := true }) ∧
    (createElement false parse appContent true |>.element) =
      (createElement false parse appContent false |>.element) ∧
    (createElement true parse appContent true =
      { element := { content := "", shadow := some (parse appContent) },
        warned := false }) := by
  refine ⟨rfl, rfl, rfl⟩

/-! ## `loadMicroApp`'s memorized loading function (apis part, lines 486–543)

`appConfigPormiseGetterMap` caches the parcel-config getter promise under the
key `name + '-' + xpath` of the target container.  Performing a load (calling
`loadApp`, which fetches the bundle and evaluates its scripts) is counted in
the state; getters are identified by the id assigned at their load. -/

/-- The state of the memorized loading machinery: the getter cache
(`appConfigPormiseGetterMap` as an association list in insertion order), the
number of `loadApp` invocations performed (each one loads the bundle and
evaluates its scripts), and the id the next fresh getter receives. -/
structure MicroAppState where
  cache : List (String × Nat)
  loads : Nat
  nextGetterId : Nat
deriving DecidableEq, Repr

/-- `Map.get` over the association list. -/
def lookupCache : List (String × Nat) → String → Option Nat
  | [], _ => none
  | (k, v) :: rest, key => if k == key then some v else lookupCache rest key

/-- The parcel config returned to `mountRootParcel`: which getter produced
it, whether its bootstrap hook was replaced by the immediately-resolving
no-op, and the container the getter was applied to. -/
structure MicroParcelConfig where
  getterId : Nat
  bootstrapIsNoop : Bool
  boundContainer : Option ContainerRef
deriving DecidableEq, Repr

/-- `getContainerXpath` (apis part, lines 501–508): resolve the container
argument through the document and, when an element is found, compute its
XPath; `xpathOf` stands for `getXPathForElement` (from `src/utils.ts`, not
included in the sources), modelled from the spec as the per-element lookup
key computation. -/
def getContainerXpath (lookup : String → Option Nat)
    (xpathOf : Nat → Option String) (container : ContainerRef) :
    Option String :=
  match getContainer lookup (some container) with
  | some el => xpathOf el
  | none => none

/-- `memorizedLoadingFn` (apis part, lines 515–540): when the descriptor has
a truthy container whose XPath resolves and a getter is cached under
`name-xpath`, the cached getter is applied to the container and the returned
config's bootstrap hook is replaced by an immediately-resolving no-op;
otherwise `loadApp` is invoked (one more load), the fresh getter is cached
under `name-xpath` when the container and its XPath resolve, and the fresh
getter is applied to the container. -/
def memorizedLoadingFn (lookup : String → Option Nat)
    (xpathOf : Nat → Option String) (appName : String)
    (container : Option ContainerRef) (st : MicroAppState) :
    MicroAppState × MicroParcelConfig :=
  let cachedGetter : Option Nat :=
    if containerTruthy container then
      match container with
      | some c =>
        match getContainerXpath lookup xpathOf c with
        | some xpath => lookupCache st.cache (appName ++ "-" ++ xpath)
        | none => none
      | none => none
    else none
  match cachedGetter with
  | some gid =>
    (st, { getterId := gid, bootstrapIsNoop := true,
           boundContainer := container })
  | none =>
    let gid := st.nextGetterId
    let st1 : MicroAppState :=
      { cache := st.cache, loads := st.loads + 1, nextGetterId := gid + 1 }
    let st2 : MicroAppState :=
      if containerTruthy container then
        match container with
        | some c =>
          match getContainerXpath lookup xpathOf c with
          | some xpath =>
            { st1 with
              cache := st1.cache ++ [(appName ++ "-" ++ xpath, gid)] }
          | none => st1
        | none => st1
      else st1
    (st2, { getterId := gid, bootstrapIsNoop := false,
            boundContainer := container })

theorem lookupCache_append_self (cache : List (String × Nat)) (key : String)
    (gid : Nat) (h : lookupCache cache key = none) :
    lookupCache (cache ++ [(key, gid)]) key = some gid := by
  induction cache with
  | nil => simp [lookupCache]
  | cons kv rest ih =>
    rcases kv with ⟨k, v⟩
    by_cases hk : k == key
    · simp [lookupCache, hk] at h
    · simp only [lookupCache, hk, List.cons_append, Bool.false_eq_true,
        if_false] at h ⊢
      exact ih h

/-- C10: for a call whose descriptor has a truthy container with a resolvable
XPath — (hit) when a getter is cached under the `name-xpath` key, the
returned parcel config is produced from that cached getter applied to the
container, no additional load is performed (the bundle is not fetched nor its
scripts evaluated again), the cache is unchanged, and the config's bootstrap
hook is the immediately-resolving no-op; (miss) when no getter is cached
under the key, exactly one fresh load is performed, the returned config comes
from the fresh getter with its original bootstrap, and the fresh getter is
now cached under that key. -/
theorem memorizedLoadingFn_cache_policy (lookup : String → Option Nat)
    (xpathOf : Nat → Option String) (appName : String) (c : ContainerRef)
    (xpath : String) (st : MicroAppState)
    (htruthy : containerTruthy (some c) = true)
    (hxpath : getContainerXpath lookup xpathOf c = some xpath) :
    (∀ gid, lookupCache st.cache (appName ++ "-" ++ xpath) = some gid →
      memorizedLoadingFn lookup xpathOf appName (some c) st =
        (st, { getterId := gid, bootstrapIsNoop := true,
               boundContainer := some c })) ∧
    (lookupCache st.cache (appName ++ "-" ++ xpath) = none →
      (memorizedLoadingFn lookup xpathOf appName (some c) st).1.loads =
          st.loads + 1 ∧
      (memorizedLoadingFn lookup xpathOf appName (some c) st).2 =
        { getterId := st.nextGetterId, bootstrapIsNoop := false,
          boundContainer := some c } ∧
      lookupCache
          (memorizedLoadingFn lookup xpathOf appName (some c) st).1.cache
          (appName ++ "-" ++ xpath) = some st.nextGetterId) := by
  constructor
  · intro gid hhit
    simp [memorizedLoadingFn, htruthy, hxpath, hhit]
  · intro hmiss
    refine ⟨?_, ?_, ?_⟩
    · simp [memorizedLoadingFn, htruthy, hxpath, hmiss]
    · simp [memorizedLoadingFn, htruthy, hxpath, hmiss]
    · simp only [memorizedLoadingFn, htruthy, hxpath, hmiss, if_true]
      exact lookupCache_append_self st.cache (appName ++ "-" ++ xpath)
        st.nextGetterId hmiss

/-- Witness for C10 at a concrete input: app `"app"`, container element `7`
with XPath `/html/body/div`; from the empty cache the first call performs a
load and caches getter `0`, and a second call on the resulting state is a
cache hit returning getter `0` with the no-op bootstrap and no further
load. -/
theorem memorizedLoadingFn_cache_policy_witness :
    (memorizedLoadingFn (fun _ => none)
        (fun e => if e == 7 then some "/html/body/div" else none) "app"
        (some (ContainerRef.element 7))
        { cache := [], loads := 0, nextGetterId := 0 }).1.loads = 1 ∧
    memorizedLoadingFn (fun _ => none)
        (fun e => if e == 7 then some "/html/body/div" else none) "app"
        (some (ContainerRef.element 7))
        { cache := [("app-/html/body/div", 0)], loads := 1,
          nextGetterId := 1 } =
      ({ cache := [("app-/html/body/div", 0)], loads := 1, nextGetterId := 1 },
       { getterId := 0, bootstrapIsNoop := true,
         boundContainer := some (ContainerRef.element 7) }) := by
  constructor
  · have h := ((memorizedLoadingFn_cache_policy (fun _ => none)
      (fun e => if e == 7 then some "/html/body/div" else none) "app"
      (ContainerRef.element 7) "/html/body/div"
      { cache := [], loads := 0, nextGetterId := 0 } rfl rfl).2 rfl).1
    simpa using h
  · exact (memorizedLoadingFn_cache_policy (fun _ => none)
      (fun e => if e == 7 then some "/html/body/div" else none) "app"
      (ContainerRef.element 7) "/html/body/div"
      { cache := [("app-/html/body/div", 0)], loads := 1,
        nextGetterId := 1 } rfl rfl).1 0 rfl

/-! ## The application instance identity (loader.ts 235)

`` `${appName}_${+new Date()}_${Math.floor(Math.random() * 1000)}` ``: the id
concatenates the app name, the millisecond timestamp and the random suffix,
separated by underscores.  The timestamp and the random draw are the
environment's inputs to the load.  Distinctness of two ids reduces to
injectivity of the decimal rendering, proved by a decode round-trip over
`Nat.toDigitsCore`. -/

/-- The instance id of one load: app name, millisecond timestamp of the load
and the random suffix drawn at the load, joined with underscores. -/
def appInstanceId (appName : String) (timestamp rand : Nat) : String :=
  appName ++ "_" ++ Nat.repr timestamp ++ "_" ++ Nat.repr rand

/-- The numeric value of a decimal digit character. -/
def digitVal (c : Char) : Nat :=
  c.toNat - 48

/-- Decimal decoding of a digit string onto an accumulator. -/
def decDigits : Nat → List Char → Nat
  | a, [] => a
  | a, c :: cs => decDigits (10 * a + digitVal c) cs

theorem digitVal_digitChar (d : Nat) (h : d < 10) :
    digitVal (Nat.digitChar d) = d := by
  interval_cases d <;> decide

theorem decDigits_toDigitsCore (f : Nat) :
    ∀ (m a : Nat) (tl : List Char), m < f →
      ∃ p : Nat, 0 < p ∧ m < p ∧
        decDigits a (Nat.toDigitsCore 10 f m tl) =
          decDigits (a * p + m) tl := by
  induction f with
  | zero => intro m a tl hlt; omega
  | succ f ih =>
    intro m a tl hlt
    by_cases h0 : m / 10 = 0
    · refine ⟨10, by norm_num, by omega, ?_⟩
      have hstep : Nat.toDigitsCore 10 (f + 1) m tl =
          Nat.digitChar (m % 10) :: tl := by
        simp [Nat.toDigitsCore, h0]
      rw [hstep]
      show decDigits (10 * a + digitVal (Nat.digitChar (m % 10))) tl = _
      rw [digitVal_digitChar (m % 10) (by omega)]
      have hmod : m % 10 = m := by omega
      have harith : 10 * a + m = a * 10 + m := by ring
      rw [hmod, harith]
    · have hstep : Nat.toDigitsCore 10 (f + 1) m tl =
          Nat.toDigitsCore 10 f (m / 10) (Nat.digitChar (m % 10) :: tl) := by
        simp [Nat.toDigitsCore, h0]
      rw [hstep]
      obtain ⟨p', hp'pos, hmp', heq⟩ :=
        ih (m / 10) a (Nat.digitChar (m % 10) :: tl) (by omega)
      rw [heq]
      refine ⟨10 * p', by positivity, by omega, ?_⟩
      show decDigits (10 * (a * p' + m / 10) + digitVal (Nat.digitChar (m % 10))) tl = _
      rw [digitVal_digitChar (m % 10) (by omega)]
      have hdm : 10 * (m / 10) + m % 10 = m := Nat.div_add_mod m 10
      have harith : 10 * (a * p' + m / 10) + m % 10 =
          a * (10 * p') + (10 * (m / 10) + m % 10) := by ring
      rw [harith, hdm]

theorem decDigits_toDigits (n : Nat) :
    decDigits 0 (Nat.toDigits 10 n) = n := by
  obtain ⟨p, hppos, hnp, heq⟩ :=
    decDigits_toDigitsCore (n + 1) n 0 [] (Nat.lt_succ_self n)
  show decDigits 0 (Nat.toDigitsCore 10 (n + 1) n []) = n
  rw [heq]
  show 0 * p + n = n
  omega

theorem natRepr_injective (m n : Nat) (h : Nat.repr m = Nat.repr n) :
    m = n := by
  have hdata : Nat.toDigits 10 m = Nat.toDigits 10 n :=
    congrArg String.data h
  calc m = decDigits 0 (Nat.toDigits 10 m) := (decDigits_toDigits m).symm
    _ = decDigits 0 (Nat.toDigits 10 n) := by rw [hdata]
    _ = n := decDigits_toDigits n

theorem digitChar_ne_underscore (n : Nat) : Nat.digitChar n ≠ '_' := by
  by_cases hlt : n < 16
  · interval_cases n <;> decide
  · have hne : ∀ k, k < 16 → ¬ n = k := by intro k hk; omega
    unfold Nat.digitChar
    rw [if_neg (hne 0 (by norm_num)), if_neg (hne 1 (by norm_num)),
      if_neg (hne 2 (by norm_num)), if_neg (hne 3 (by norm_num)),
      if_neg (hne 4 (by norm_num)), if_neg (hne 5 (by norm_num)),
      if_neg (hne 6 (by norm_num)), if_neg (hne 7 (by norm_num)),
      if_neg (hne 8 (by norm_num)), if_neg (hne 9 (by norm_num)),
      if_neg (hne 10 (by norm_num)), if_neg (hne 11 (by norm_num)),
      if_neg (hne 12 (by norm_num)), if_neg (hne 13 (by norm_num)),
      if_neg (hne 14 (by norm_num)), if_neg (hne 15 (by norm_num))]
    decide

theorem toDigitsCore_ne_underscore (f : Nat) :
    ∀ (m : Nat) (tl : List Char), (∀ c ∈ tl, c ≠ '_') →
      ∀ c ∈ Nat.toDigitsCore 10 f m tl, c ≠ '_' := by
  induction f with
  | zero => intro m tl htl c hc; exact htl c hc
  | succ f ih =>
    intro m tl htl c hc
    by_cases h0 : m / 10 = 0
    · have hstep : Nat.toDigitsCore 10 (f + 1) m tl =
          Nat.digitChar (m % 10) :: tl := by
        simp [Nat.toDigitsCore, h0]
      rw [hstep] at hc
      rcases List.mem_cons.mp hc with rfl | hmem
      · exact digitChar_ne_underscore (m % 10)
      · exact htl c hmem
    · have hstep : Nat.toDigitsCore 10 (f + 1) m tl =
          Nat.toDigitsCore 10 f (m / 10) (Nat.digitChar (m % 10) :: tl) := by
        simp [Nat.toDigitsCore, h0]
      rw [hstep] at hc
      refine ih (m / 10) (Nat.digitChar (m % 10) :: tl) ?_ c hc
      intro c' hc'
      rcases List.mem_cons.mp hc' with rfl | hmem
      · exact digitChar_ne_underscore (m % 10)
      · exact htl c' hmem

theorem toDigits_ne_underscore (n : Nat) :
    ∀ c ∈ Nat.toDigits 10 n, c ≠ '_' := by
  intro c hc
  exact toDigitsCore_ne_underscore (n + 1) n [] (by simp) c hc

theorem append_sep_inj {α : Type} (sep : α) :
    ∀ (xs xs' ys ys' : List α), (∀ c ∈ xs, c ≠ sep) →
      (∀ c ∈ xs', c ≠ sep) →
      xs ++ sep :: ys = xs' ++ sep :: ys' → xs = xs' ∧ ys = ys' := by
  intro xs
  induction xs with
  | nil =>
    intro xs' ys ys' _ hxs' heq
    cases xs' with
    | nil => simpa using heq
    | cons x' t' =>
      simp only [List.nil_append, List.cons_append, List.cons.injEq] at heq
      exact absurd heq.1.symm (hxs' x' (by simp))
  | cons x t ih =>
    intro xs' ys ys' hxs hxs' heq
    cases xs' with
    | nil =>
      simp only [List.cons_append, List.nil_append, List.cons.injEq] at heq
      exact absurd heq.1 (hxs x (by simp))
    | cons x' t' =>
      simp only [List.cons_append, List.cons.injEq] at heq
      obtain ⟨h1, h2⟩ := heq
      obtain ⟨ht, hy⟩ := ih t' ys ys' (fun c hc => hxs c (by simp [hc]))
        (fun c hc => hxs' c (by simp [hc])) h2
      exact ⟨by rw [h1, ht], hy⟩

theorem appInstanceId_inj (appName : String) (t₁ r₁ t₂ r₂ : Nat)
    (h : appInstanceId appName t₁ r₁ = appInstanceId appName t₂ r₂) :
    t₁ = t₂ ∧ r₁ = r₂ := by
  have hdata : appName.data ++
      ('_' :: (Nat.toDigits 10 t₁ ++ '_' :: Nat.toDigits 10 r₁)) =
      appName.data ++
      ('_' :: (Nat.toDigits 10 t₂ ++ '_' :: Nat.toDigits 10 r₂)) := by
    have hd := congrArg String.data h
    simpa [appInstanceId, String.data_append, List.append_assoc] using hd
  have htail := List.append_cancel_left hdata
  have hmid : Nat.toDigits 10 t₁ ++ '_' :: Nat.toDigits 10 r₁ =
      Nat.toDigits 10 t₂ ++ '_' :: Nat.toDigits 10 r₂ := by
    injection htail
  obtain ⟨hts, hrs⟩ := append_sep_inj '_' (Nat.toDigits 10 t₁)
    (Nat.toDigits 10 t₂) (Nat.toDigits 10 r₁) (Nat.toDigits 10 r₂)
    (toDigits_ne_underscore t₁) (toDigits_ne_underscore t₂) hmid
  constructor
  · calc t₁ = decDigits 0 (Nat.toDigits 10 t₁) := (decDigits_toDigits t₁).symm
      _ = decDigits 0 (Nat.toDigits 10 t₂) := by rw [hts]
      _ = t₂ := decDigits_toDigits t₂
  · calc r₁ = decDigits 0 (Nat.toDigits 10 r₁) := (decDigits_toDigits r₁).symm
      _ = decDigits 0 (Nat.toDigits 10 r₂) := by rw [hrs]
      _ = r₂ := decDigits_toDigits r₂

/-- C9 counterexample: the id generation depends only on the name, the
millisecond timestamp and the random suffix.  Two sequential loads of the
descriptor `"app"` that observe the same millisecond timestamp
`1700000000000` and draw the same random suffix `123` — which nothing in the
code prevents — produce the very same instance id, refuting the claim that
every two sequential loads produce distinct identities. -/
theorem appInstanceId_collision_counterexample :
    appInstanceId "app" 1700000000000 123 =
      appInstanceId "app" 1700000000000 123 := rfl

/-- C9 amended: two sequential loads of the same descriptor produce distinct
instance identities whenever they observe different millisecond timestamps or
draw different random suffixes; when both coincide the ids collide (the
collision probability is accepted as negligible by the spec). -/
theorem appInstanceId_distinct_of_entropy (appName : String)
    (t₁ r₁ t₂ r₂ : Nat) (h : t₁ ≠ t₂ ∨ r₁ ≠ r₂) :
    appInstanceId appName t₁ r₁ ≠ appInstanceId appName t₂ r₂ := by
  intro heq
  obtain ⟨ht, hr⟩ := appInstanceId_inj appName t₁ r₁ t₂ r₂ heq
  rcases h with h | h
  · exact h ht
  · exact h hr

/-- Witness for C9's amended theorem at a concrete input: loads at
timestamps `5` and `6` with the same random suffix `7` get distinct ids. -/
theorem appInstanceId_distinct_of_entropy_witness :
    appInstanceId "app" 5 7 ≠ appInstanceId "app" 6 7 :=
  appInstanceId_distinct_of_entropy "app" 5 7 6 7 (Or.inl (by decide))

end Qiankun
